import Mathlib

/-!
# KChat — verification of the conversation store and debounce scheduler

Shallow embedding of the KChat plugin core:

* `src/session_context/session_manager.py` — `SimpleMessageContent`,
  `SimpleMessage`, `Session` (bounded history with merge-on-arrival and
  sliding-window eviction), `SessionManager` (registry keyed by numeric id).
* `src/__init__.py` — `SessionState` (debounce bookkeeping),
  `handle_all_message` (ingestion handler), `delayed_llm_query`
  (debounce cycle + delivery executor), `handle_llm_query` (line splitting).

Durable-file I/O (`_save_session` / `_load_session`) is not modelled: it
writes through and never changes the in-memory state, which the claims are
about.  Time is modelled by exact rationals and the asyncio event loop by an
explicit small-step interleaving relation where each code segment between
`await` points is one atomic step.
-/

namespace KChat

/-- `SimpleMessageContent` (session_manager.py:46): tagged content,
`type == "text"` carries a string, `type == "image_url"` carries a
`{url, detail}` dict.  The constructor rejects an `image_url` whose data
misses `url` or `detail`, so the embedded type carries both fields. -/
inductive SimpleMessageContent where
  | text (s : String)
  | image_url (url : String) (detail : String)
deriving DecidableEq, Repr

/-- The `user_id` field of a `SimpleMessage`.  Python is dynamically typed:
messages built from inbound events carry the integer `event.user_id`
(session_manager.py:76), while the reply synthesized in `delayed_llm_query`
is built with `"user_id": str(event.self_id)` (src/__init__.py:206) and
`SimpleMessage.from_dict` stores that value unconverted
(session_manager.py:140).  Python `==` between an int and a str is `False`,
which the derived equality on this sum reproduces. -/
inductive UserId where
  | int (n : Int)
  | str (s : String)
deriving DecidableEq, Repr

/-- `SimpleMessage` (session_manager.py:73): one history entry. -/
structure SimpleMessage where
  user_name : String
  user_id : UserId
  time : Int
  message : List SimpleMessageContent
deriving DecidableEq, Repr

/-- `session_type`: `"private" | "group"`. -/
inductive SessionType where
  | privateChat
  | groupChat
deriving DecidableEq, Repr

/-- `Session` (session_manager.py:154): bounded conversation history.
`max_histories` defaults to 10.  The sessions directory and file handle are
not modelled. -/
structure Session where
  session_id : Int
  session_type : SessionType
  self_id : Int
  max_histories : Nat
  messages : List SimpleMessage
deriving DecidableEq, Repr

/-- The merge condition of `Session._try_merge_message`
(session_manager.py:202-203): same `user_id` and
`abs(last.time - new.time) <= 180`. -/
def mergeCond (last new : SimpleMessage) : Prop :=
  last.user_id = new.user_id ∧ (last.time - new.time).natAbs ≤ 180

instance (last new : SimpleMessage) : Decidable (mergeCond last new) := by
  unfold mergeCond; infer_instance

/-- The content `last_message.message.extend(new_message.message)` of the
in-place merge (session_manager.py:205). -/
def mergedEntry (last new : SimpleMessage) : SimpleMessage :=
  { last with message := last.message ++ new.message }

/-- The evict-then-append tail of `Session.add_message`
(session_manager.py:220-226): if `len(messages) >= max_histories` remove
the oldest entry (`pop(0)`), then append.  (`pop(0)` on an empty list —
only reachable when `max_histories = 0` — raises in Python; here it is
`List.tail`, and every theorem that exercises eviction assumes
`0 < max_histories`, as the data model's `capacity > 0` provides.) -/
def appendEvict (cap : Nat) (msgs : List SimpleMessage) (m : SimpleMessage) :
    List SimpleMessage :=
  (if cap ≤ msgs.length then msgs.tail else msgs) ++ [m]

/-- `Session.add_message` on the message list (session_manager.py:210-228):
first `_try_merge_message` — if the list is nonempty and the last entry
satisfies the merge condition, the new message's content is extended onto
the last entry's content in place — otherwise evict-then-append. -/
def addMessageList (cap : Nat) (msgs : List SimpleMessage) (m : SimpleMessage) :
    List SimpleMessage :=
  match msgs.getLast? with
  | some last =>
      if mergeCond last m then msgs.dropLast ++ [mergedEntry last m]
      else appendEvict cap msgs m
  | none => appendEvict cap msgs m

/-- `Session.add_message` (session_manager.py:210-228). -/
def addMessage (s : Session) (m : SimpleMessage) : Session :=
  { s with messages := addMessageList s.max_histories s.messages m }

/-- `Session.clear_history` (session_manager.py:230). -/
def clearHistory (s : Session) : Session :=
  { s with messages := [] }

theorem addMessageList_nil (cap : Nat) (m : SimpleMessage) :
    addMessageList cap [] m = [m] := by
  unfold addMessageList appendEvict
  simp

theorem addMessageList_concat (cap : Nat) (init : List SimpleMessage)
    (last m : SimpleMessage) :
    addMessageList cap (init ++ [last]) m =
      if mergeCond last m then init ++ [mergedEntry last m]
      else appendEvict cap (init ++ [last]) m := by
  unfold addMessageList
  rw [List.getLast?_concat]
  simp

theorem addMessage_max_histories (s : Session) (m : SimpleMessage) :
    (addMessage s m).max_histories = s.max_histories := rfl

theorem addMessageList_length_le (cap : Nat) (msgs : List SimpleMessage)
    (m : SimpleMessage) (hc : 0 < cap) (h : msgs.length ≤ cap) :
    (addMessageList cap msgs m).length ≤ cap := by
  rcases List.eq_nil_or_concat msgs with hnil | ⟨init, last, hcat⟩
  · subst hnil
    simpa [addMessageList_nil] using hc
  · rw [List.concat_eq_append] at hcat
    subst hcat
    rw [addMessageList_concat]
    split
    · simpa using h
    · unfold appendEvict
      split
      · rename_i hge
        simp only [List.length_append, List.length_tail, List.length_singleton] at *
        omega
      · rename_i hlt
        simp only [List.length_append, List.length_singleton] at *
        omega

theorem addMessage_length_le (s : Session) (m : SimpleMessage)
    (hc : 0 < s.max_histories) (h : s.messages.length ≤ s.max_histories) :
    (addMessage s m).messages.length ≤ s.max_histories :=
  addMessageList_length_le s.max_histories s.messages m hc h

theorem foldl_addMessage_inv (ms : List SimpleMessage) :
    ∀ s : Session, 0 < s.max_histories → s.messages.length ≤ s.max_histories →
      (ms.foldl addMessage s).max_histories = s.max_histories ∧
        (ms.foldl addMessage s).messages.length ≤ s.max_histories := by
  induction ms with
  | nil => intro s _ h; exact ⟨rfl, h⟩
  | cons a l ih =>
      intro s hc h
      rw [List.foldl_cons]
      have hstep := addMessage_length_le s a hc h
      have hmax : (addMessage s a).max_histories = s.max_histories :=
        addMessage_max_histories s a
      have := ih (addMessage s a) (hmax ▸ hc) (hmax ▸ hstep)
      exact ⟨hmax ▸ this.1, hmax ▸ this.2⟩

/-- Running example: a one-entry conversation (capacity 10) used by the
witnesses below. -/
def exLast : SimpleMessage :=
  { user_name := "alice", user_id := .int 7, time := 0,
    message := [.text "a"] }

def exSession1 : Session :=
  { session_id := 1, session_type := .privateChat, self_id := 99,
    max_histories := 10, messages := [exLast] }

def exMsg180 : SimpleMessage :=
  { user_name := "alice", user_id := .int 7, time := 180,
    message := [.text "b"] }

def exMsg181 : SimpleMessage :=
  { user_name := "alice", user_id := .int 7, time := 181,
    message := [.text "c"] }

/-- C2: for every conversation with capacity `C = max_histories > 0` whose
message list satisfies `length(messages) <= C` (in particular one created
empty), after every call of an arbitrary sequence of `add_message` appends
the list still satisfies `length(messages) <= C` (`take n` ranges over all
prefixes of the sequence, i.e. the state after every call). -/
theorem claim_C2_capacity_invariant (s : Session) (ms : List SimpleMessage)
    (hc : 0 < s.max_histories) (h : s.messages.length ≤ s.max_histories) :
    ∀ n : Nat, ((ms.take n).foldl addMessage s).messages.length ≤ s.max_histories :=
  fun n => (foldl_addMessage_inv (ms.take n) s hc h).2

theorem claim_C2_capacity_invariant_witness :
    0 < exSession1.max_histories ∧
      exSession1.messages.length ≤ exSession1.max_histories ∧
      (([exMsg180, exMsg181].take 2).foldl addMessage exSession1).messages.length ≤
        exSession1.max_histories :=
  ⟨by decide, by decide,
    claim_C2_capacity_invariant exSession1 [exMsg180, exMsg181]
      (by decide) (by decide) 2⟩

/-- C3: on `add_message`, the new message is merged into the history iff the
last entry has an equal `user_id` and the timestamps differ by at most 180
seconds; when it merges, the last entry's content becomes old-content ++
new-content and the list length is unchanged, every entry but the last being
left untouched; when it does not merge (in particular at a 181-second gap or
a different sender) no entry is modified — the message is appended as a new
last entry after possible head eviction. -/
theorem claim_C3_merge_rule (s : Session) (init : List SimpleMessage)
    (last m : SimpleMessage) (h : s.messages = init ++ [last]) :
    (mergeCond last m ↔
        last.user_id = m.user_id ∧ (last.time - m.time).natAbs ≤ 180) ∧
    (mergeCond last m →
        (addMessage s m).messages = init ++ [mergedEntry last m] ∧
        (mergedEntry last m).message = last.message ++ m.message ∧
        (addMessage s m).messages.length = s.messages.length) ∧
    (¬ mergeCond last m →
        (addMessage s m).messages =
          (if s.max_histories ≤ s.messages.length then s.messages.tail
            else s.messages) ++ [m]) := by
  refine ⟨Iff.rfl, ?_, ?_⟩
  · intro hm
    have he : (addMessage s m).messages = init ++ [mergedEntry last m] := by
      show addMessageList s.max_histories s.messages m = _
      rw [h, addMessageList_concat]
      simp [hm]
    refine ⟨he, rfl, ?_⟩
    rw [he, h]
    simp [mergedEntry]
  · intro hm
    show addMessageList s.max_histories s.messages m = _
    rw [h, addMessageList_concat]
    simp only [hm, if_false]
    rw [appendEvict, ← h]

theorem claim_C3_merge_rule_witness :
    (addMessage exSession1 exMsg180).messages = [mergedEntry exLast exMsg180] ∧
      (mergedEntry exLast exMsg180).message = [.text "a", .text "b"] ∧
      (addMessage exSession1 exMsg181).messages = [exLast, exMsg181] := by
  have h180 :=
    (claim_C3_merge_rule exSession1 [] exLast exMsg180 rfl).2.1 (by decide)
  have h181 :=
    (claim_C3_merge_rule exSession1 [] exLast exMsg181 rfl).2.2 (by decide)
  refine ⟨by simpa using h180.1, by simpa using h180.2.1, ?_⟩
  simpa [exSession1] using h181

/-! ## SessionManager (session_manager.py:276-333)

The registry is `sessions: Dict[int, Session]` — keyed by the numeric
session id alone, not by the `(kind, id)` pair.  Modelled as a partial map
`Int → Option Session`. `get_session` derives `session_id` from
`event.group_id` for group events and `event.user_id` for private ones and
looks up only that integer.  Durable-file loading is not modelled, so a
fresh session starts empty (`Session.__init__` with no file present). -/

structure SessionManager where
  sessions : Int → Option Session

def SessionManager.empty : SessionManager := ⟨fun _ => none⟩

/-- `SessionManager.get_session` (session_manager.py:295-303): look up
`session_id`; if absent, create `Session(session_id, session_type, self_id)`
(capacity default 10, fresh history empty). Returns the session together
with the updated registry. -/
def getSession (mgr : SessionManager) (stype : SessionType) (sid selfId : Int) :
    Session × SessionManager :=
  match mgr.sessions sid with
  | some s => (s, mgr)
  | none =>
      let s : Session :=
        { session_id := sid, session_type := stype, self_id := selfId,
          max_histories := 10, messages := [] }
      (s, ⟨fun i => if i = sid then some s else mgr.sessions i⟩)

/-- `SessionManager.add_self_message` (session_manager.py:313-321): append
through the ordinary merge/evict `add_message` when the session exists,
warn-and-drop otherwise. -/
def addSelfMessage (mgr : SessionManager) (sid : Int) (m : SimpleMessage) :
    SessionManager :=
  match mgr.sessions sid with
  | some s => ⟨fun i => if i = sid then some (addMessage s m) else mgr.sessions i⟩
  | none => mgr

/-- `SessionManager.delete_session` (session_manager.py:323-333): remove the
single entry under the numeric id (and unlink its file, not modelled);
no-op when absent. -/
def deleteSession (mgr : SessionManager) (sid : Int) : SessionManager :=
  match mgr.sessions sid with
  | some _ => ⟨fun i => if i = sid then none else mgr.sessions i⟩
  | none => mgr

/-- C9: the registry indexes sessions by the numeric id alone: whatever
kind the incoming event has, `get_session` returns the session object that
was registered first under that id (leaving the registry unchanged), and
`delete_session` removes that single shared entry for both kinds. -/
theorem claim_C9_registry_keyed_by_id (mgr : SessionManager) (s : Session)
    (sid selfId : Int) (k : SessionType) (h : mgr.sessions sid = some s) :
    (getSession mgr k sid selfId).1 = s ∧
      (getSession mgr k sid selfId).2 = mgr ∧
      (deleteSession mgr sid).sessions sid = none := by
  unfold getSession deleteSession
  rw [h]
  exact ⟨rfl, rfl, by simp⟩

/-- The registry after a group event for id 42 was handled first. -/
def exMgrGroup42 : SessionManager :=
  (getSession SessionManager.empty SessionType.groupChat 42 9).2

/-- The session that first registration creates: a group session. -/
def exGroupSession42 : Session :=
  { session_id := 42, session_type := SessionType.groupChat,
    self_id := 9, max_histories := 10, messages := [] }

theorem claim_C9_registry_keyed_by_id_witness :
    exMgrGroup42.sessions 42 = some exGroupSession42 ∧
      (getSession exMgrGroup42 SessionType.privateChat 42 9).1 = exGroupSession42 ∧
      (deleteSession exMgrGroup42 42).sessions 42 = none := by
  have h : exMgrGroup42.sessions 42 = some exGroupSession42 := by decide
  have happ := claim_C9_registry_keyed_by_id exMgrGroup42 exGroupSession42
    42 9 SessionType.privateChat h
  exact ⟨h, happ.1, happ.2.2⟩

/-! ## Query splitting and delivery pacing (src/__init__.py:153-201) -/

/-- Python `str.split(sep)` for a one-character separator, on the character
list: occurrences of the separator delimit (possibly empty) groups, so
`"\nok\n"` gives `["", "ok", ""]` and `""` gives `[""]`. -/
def splitOnChar (c : Char) : List Char → List (List Char)
  | [] => [[]]
  | a :: rest =>
      match splitOnChar c rest with
      | [] => [[a]]
      | grp :: grps => if a = c then [] :: grp :: grps else (a :: grp) :: grps

/-- Python `str.strip()` on the character list: drop leading and trailing
whitespace (`Char.isWhitespace` covers space, tab, CR, LF — the whitespace
that occurs in the strings of interest). -/
def pyStrip (l : List Char) : List Char :=
  ((l.dropWhile Char.isWhitespace).reverse.dropWhile Char.isWhitespace).reverse

/-- `handle_llm_query` (src/__init__.py:153-167): a `None`/empty API
response, or an exception, yields `[]`; otherwise
`[line.strip() for line in response.split('\n') if line.strip()]` — split
on the newline character, strip every line, discard blanks.  `none` stands
for both the exception path and a falsy response. -/
def handleLlmQuery (response : Option String) : List String :=
  match response with
  | none => []
  | some s =>
      ((splitOnChar '\n' s.data).map (fun l => String.mk (pyStrip l))).filter
        (fun l => l ≠ "")

/-- The inter-part pacing delay `max(0.75, min(1.5, len(msg) / 60))`
(src/__init__.py:199). -/
def partDelay (msg : String) : ℚ :=
  max 0.75 (min 1.5 ((msg.length : ℚ) / 60))

/-- Denotation of the send loop (src/__init__.py:194-201): each part paired
with the sleep that precedes its send — `none` for an empty sequence (the
cycle aborted before sending), delay `0` before part 0, `partDelay` before
every later part, strictly in list order. -/
def deliverySchedule : List String → Option (List (ℚ × String))
  | [] => none
  | first :: rest => some ((0, first) :: rest.map (fun m => (partDelay m, m)))

/-- A 90-character part, `"a" * 90`. -/
def exPart90 : String := String.mk (List.replicate 90 'a')

/-- C7: the result string is split on line breaks with blank lines
discarded, yielding non-empty parts in order (`"\nok\n"` yields just
`"ok"`); part 0 is sent with no delay and each later part after
`clamp(len/60, 0.75, 1.5)` seconds, which is bounded by the 0.75 floor and
1.5 ceiling and equals exactly 1.5 for a 90-character part; the empty part
sequence produces no send schedule (failure). -/
theorem claim_C7_delivery_pacing :
    (∀ s : String, ∀ p ∈ handleLlmQuery (some s), p ≠ "") ∧
    handleLlmQuery (some "\nok\n") = ["ok"] ∧
    deliverySchedule [] = none ∧
    (∀ first rest, deliverySchedule (first :: rest) =
        some ((0, first) :: rest.map (fun m => (partDelay m, m)))) ∧
    (∀ m : String, (3/4 : ℚ) ≤ partDelay m ∧ partDelay m ≤ 3/2) ∧
    partDelay exPart90 = 3/2 ∧
    deliverySchedule ["hi", exPart90] = some [(0, "hi"), (3/2, exPart90)] := by
  have hdelay : ∀ m : String, (3/4 : ℚ) ≤ partDelay m ∧ partDelay m ≤ 3/2 := by
    intro m
    constructor
    · calc (3/4 : ℚ) = 0.75 := by norm_num
        _ ≤ partDelay m := le_max_left _ _
    · refine max_le (by norm_num) ?_
      calc min 1.5 ((m.length : ℚ) / 60) ≤ 1.5 := min_le_left _ _
        _ = 3/2 := by norm_num
  have h90 : partDelay exPart90 = 3/2 := by
    have hlen : (exPart90.length : ℚ) = 90 := by
      have : exPart90.length = 90 := by decide
      rw [this]; norm_num
    unfold partDelay
    rw [hlen]
    norm_num
  refine ⟨?_, by decide, rfl, fun first rest => rfl, hdelay, h90, ?_⟩
  · intro s p hp
    have := List.of_mem_filter hp
    simpa using this
  · show some _ = some _
    rw [List.map_cons, List.map_nil, h90]

theorem claim_C7_delivery_pacing_witness :
    ("ok" : String) ≠ "" ∧ (3/4 : ℚ) ≤ partDelay "hi" :=
  ⟨claim_C7_delivery_pacing.1 "\nok\n" "ok" (by decide),
    (claim_C7_delivery_pacing.2.2.2.2.1 "hi").1⟩

/-! ## Debounce bookkeeping and the cycle body (src/__init__.py:33-51, 169-221)

`SessionState` holds `last_message_time` (a `defaultdict(float)`, default
`0.0`) and `pending_sessions` (a set of session ids).  The event-loop clock
is an exact rational. -/

structure SchedulerState where
  last_message_time : Int → ℚ
  pending_sessions : Int → Bool

def SchedulerState.initial : SchedulerState :=
  { last_message_time := fun _ => 0, pending_sessions := fun _ => false }

/-- `SessionState.update_time` (src/__init__.py:38-39). -/
def updateTime (st : SchedulerState) (sid : Int) (now : ℚ) : SchedulerState :=
  { st with last_message_time := fun i => if i = sid then now else st.last_message_time i }

/-- `SessionState.add_pending` (src/__init__.py:41-42). -/
def addPending (st : SchedulerState) (sid : Int) : SchedulerState :=
  { st with pending_sessions := fun i => if i = sid then true else st.pending_sessions i }

/-- `SessionState.remove_pending` (src/__init__.py:44-45). -/
def removePending (st : SchedulerState) (sid : Int) : SchedulerState :=
  { st with pending_sessions := fun i => if i = sid then false else st.pending_sessions i }

/-- The module state the cycle touches: the debounce bookkeeping plus the
session registry. -/
structure World where
  sched : SchedulerState
  mgr : SessionManager

/-- The reply `delayed_llm_query` synthesizes after all parts are sent
(src/__init__.py:204-209): built through `SimpleMessage.from_dict` with
`user_name = character_name`, `user_id = str(event.self_id)` — the *string*
form, stored unconverted by `from_dict` (session_manager.py:139-140) —
`time` the current wall clock at second precision, and one `text` content
per sent part, in delivery order. -/
def botSimpleMessage (characterName : String) (selfId : Int) (recordTime : Int)
    (parts : List String) : SimpleMessage :=
  { user_name := characterName
  , user_id := .str (toString selfId)
  , time := recordTime
  , message := parts.map .text }

/-- One execution of `delayed_llm_query` (src/__init__.py:169-221) after its
debounce loop has exited, as a function of how the body terminates:

* `response` is what `handle_llm_query` saw (`none` = API failure /
  exception / empty — all return `[]`);
* `interrupt = some k` means a `CancelledError` or another exception struck
  after `k` parts had been sent (both are caught, src 216-219);
* `interrupt = none` is the full success path, which records the bot reply
  through `session_manager.add_self_message` (the ordinary merge/evict
  append).

Entry marks the session pending and stamps `last_activity`
(src 174-175); the `finally` block (src 220-221) unconditionally removes
the session from `pending_sessions` on every path.  Returns the new world
and the list of parts actually sent. -/
def runCycle (w : World) (sid : Int) (characterName : String) (selfId : Int)
    (nowStart : ℚ) (recordTime : Int) (response : Option String)
    (interrupt : Option Nat) : World × List String :=
  let st1 := updateTime (addPending w.sched sid) sid nowStart
  let parts := handleLlmQuery response
  let body : SessionManager × List String :=
    if parts = [] then (w.mgr, [])
    else
      match interrupt with
      | some k => (w.mgr, parts.take k)
      | none =>
          (addSelfMessage w.mgr sid
              (botSimpleMessage characterName selfId recordTime parts), parts)
  (⟨removePending st1 sid, body.1⟩, body.2)

/-- C5: every cycle exit path — successful delivery, QueryFunction failure
or empty result, an exception during execution, and external cancellation
mid-cycle — clears the conversation's pending flag: after `runCycle`
returns, `pending_sessions` answers `false` for that conversation, whatever
the outcome and whatever the flag was before. -/
theorem claim_C5_pending_cleared (w : World) (sid : Int)
    (characterName : String) (selfId : Int) (nowStart : ℚ) (recordTime : Int)
    (response : Option String) (interrupt : Option Nat) :
    ((runCycle w sid characterName selfId nowStart recordTime response
        interrupt).1.sched.pending_sessions) sid = false := by
  unfold runCycle removePending
  simp

/-- C6: if the QueryFunction fails or returns a result that is empty or
blank after line-splitting (`handle_llm_query` yields `[]`), the cycle
aborts with no part sent and no message appended: the whole session
registry — in particular the conversation's message log — is exactly what
it was when execution began. -/
theorem claim_C6_abort_no_side_effects (w : World) (sid : Int)
    (characterName : String) (selfId : Int) (nowStart : ℚ) (recordTime : Int)
    (response : Option String) (interrupt : Option Nat)
    (h : handleLlmQuery response = []) :
    (runCycle w sid characterName selfId nowStart recordTime response
        interrupt).2 = [] ∧
      (runCycle w sid characterName selfId nowStart recordTime response
          interrupt).1.mgr = w.mgr := by
  unfold runCycle
  rw [h]
  exact ⟨rfl, rfl⟩

theorem claim_C6_abort_no_side_effects_witness :
    handleLlmQuery (some "\n \n") = [] ∧
      (runCycle ⟨SchedulerState.initial, exMgrGroup42⟩ 42 "kchat" 9 0 1000
          (some "\n \n") none).2 = [] ∧
      (runCycle ⟨SchedulerState.initial, exMgrGroup42⟩ 42 "kchat" 9 0 1000
          (some "\n \n") none).1.mgr = exMgrGroup42 :=
  ⟨by decide,
    (claim_C6_abort_no_side_effects ⟨SchedulerState.initial, exMgrGroup42⟩ 42
      "kchat" 9 0 1000 (some "\n \n") none (by decide)).1,
    (claim_C6_abort_no_side_effects ⟨SchedulerState.initial, exMgrGroup42⟩ 42
      "kchat" 9 0 1000 (some "\n \n") none (by decide)).2⟩

/-- C8: after a successful cycle exactly one new message is appended to the
conversation through the ordinary merge/evict `add_message`, and its
content is one `text` variant per delivered part in delivery order — but
its `user_id` is `str(event.self_id)`, the decimal *string*, which under
Python `==` (and the model's equality) is NOT the integer owner id the data
model (`user_id: int`, session_manager.py:22 and 76) prescribes.  Evaluates
the code at the failing input: a successful cycle for conversation 42 with
owner id 9 and parts `["hi", "ok"]`. -/
theorem claim_C8_bot_reply_user_id :
    (runCycle ⟨SchedulerState.initial, exMgrGroup42⟩ 42 "kchat" 9 0 1000
        (some "hi\nok") none).1.mgr =
      addSelfMessage exMgrGroup42 42
        (botSimpleMessage "kchat" 9 1000 ["hi", "ok"]) ∧
    (botSimpleMessage "kchat" 9 1000 ["hi", "ok"]).message =
      [SimpleMessageContent.text "hi", SimpleMessageContent.text "ok"] ∧
    (botSimpleMessage "kchat" 9 1000 ["hi", "ok"]).user_id = UserId.str "9" ∧
    (UserId.str "9" = UserId.int 9) = False := by
  refine ⟨rfl, rfl, rfl, ?_⟩
  simp

/-! ## The debounce loop (src/__init__.py:179-183)

`delayed_llm_query` repeatedly awaits `asyncio.sleep(5)` and exits once
`now - last_message_time >= 3`.  Sleeps are modelled as exact: the task
starts at clock `t0` (stamping `last_message_time := t0`, src 175, so `t0`
is one of the recorded activity instants) and the check runs at
`t0 + 5(k+1)` for `k = 0, 1, ...`.  `acts` is the finite list of instants
at which `update_time` ran for this conversation, so the value of
`last_message_time` read at clock `t` is the largest recorded instant
`≤ t` (`0.0`, the `defaultdict` default, when none is recorded yet). -/

def lastActivity (acts : List ℚ) (t : ℚ) : ℚ :=
  (acts.filter (fun a => a ≤ t)).foldr max 0

theorem foldr_max_nonneg (l : List ℚ) : 0 ≤ l.foldr max 0 := by
  induction l with
  | nil => simp
  | cons a l ih => exact le_trans ih (le_max_right a _)

theorem le_foldr_max (l : List ℚ) (a : ℚ) (h : a ∈ l) : a ≤ l.foldr max 0 := by
  induction l with
  | nil => simp at h
  | cons b l ih =>
      rcases List.mem_cons.mp h with rfl | h2
      · exact le_max_left _ _
      · exact le_trans (ih h2) (le_max_right _ _)

theorem foldr_max_mem_or_zero (l : List ℚ) :
    l.foldr max 0 ∈ l ∨ l.foldr max 0 = 0 := by
  induction l with
  | nil => right; rfl
  | cons a l ih =>
      rcases le_total a (l.foldr max 0) with hle | hge
      · rw [List.foldr_cons, max_eq_right hle]
        rcases ih with h | h
        · exact Or.inl (List.mem_cons_of_mem a h)
        · exact Or.inr h
      · rw [List.foldr_cons, max_eq_left hge]
        exact Or.inl (List.mem_cons_self a l)

theorem lastActivity_le_foldr (acts : List ℚ) (t : ℚ) :
    lastActivity acts t ≤ acts.foldr max 0 := by
  unfold lastActivity
  induction acts with
  | nil => simp
  | cons a l ih =>
      rw [List.filter_cons]
      by_cases h : a ≤ t
      · rw [if_pos (by simpa using h), List.foldr_cons, List.foldr_cons]
        exact max_le_max le_rfl ih
      · rw [if_neg (by simpa using h), List.foldr_cons]
        exact le_trans ih (le_max_right a _)

theorem le_lastActivity (acts : List ℚ) (t a : ℚ) (ha : a ∈ acts) (hat : a ≤ t) :
    a ≤ lastActivity acts t := by
  unfold lastActivity
  apply le_foldr_max
  exact List.mem_filter.mpr ⟨ha, by simpa using hat⟩

theorem lastActivity_mono (acts : List ℚ) (t t' : ℚ) (h : t ≤ t') :
    lastActivity acts t ≤ lastActivity acts t' := by
  unfold lastActivity
  induction acts with
  | nil => simp
  | cons a l ih =>
      rw [List.filter_cons, List.filter_cons]
      by_cases h1 : a ≤ t
      · have h2 : a ≤ t' := le_trans h1 h
        rw [if_pos (by simpa using h1), if_pos (by simpa using h2),
          List.foldr_cons, List.foldr_cons]
        exact max_le_max le_rfl ih
      · rw [if_neg (by simpa using h1)]
        by_cases h2 : a ≤ t'
        · rw [if_pos (by simpa using h2), List.foldr_cons]
          exact le_trans ih (le_max_right a _)
        · rw [if_neg (by simpa using h2)]
          exact ih

theorem lastActivity_mem_or_zero (acts : List ℚ) (t : ℚ) :
    lastActivity acts t ∈ acts ∨ lastActivity acts t = 0 := by
  rcases foldr_max_mem_or_zero (acts.filter (fun a => a ≤ t)) with h | h
  · exact Or.inl (List.mem_of_mem_filter h)
  · exact Or.inr h

theorem lastActivity_nonneg (acts : List ℚ) (t : ℚ) :
    0 ≤ lastActivity acts t :=
  foldr_max_nonneg _

/-- The loop check after the `(k+1)`-st five-second sleep
(src/__init__.py:181-182): `now - last_message_time >= 3` at clock
`t0 + 5(k+1)`. -/
def debounceCheck (acts : List ℚ) (t0 : ℚ) (k : Nat) : Prop :=
  3 ≤ (t0 + 5 * (k + 1)) - lastActivity acts (t0 + 5 * (k + 1))

instance (acts : List ℚ) (t0 : ℚ) : DecidablePred (debounceCheck acts t0) := by
  intro k; unfold debounceCheck; infer_instance

theorem debounceCheck_exists (acts : List ℚ) (t0 : ℚ) :
    ∃ k, debounceCheck acts t0 k := by
  obtain ⟨n, hn⟩ := exists_nat_ge (acts.foldr max 0 + 3 - t0)
  refine ⟨n, ?_⟩
  unfold debounceCheck
  have h1 : lastActivity acts (t0 + 5 * (n + 1)) ≤ acts.foldr max 0 :=
    lastActivity_le_foldr acts _
  have h2 : (n : ℚ) ≤ 5 * (n + 1) := by
    have : (0 : ℚ) ≤ n := Nat.cast_nonneg n
    linarith
  linarith

/-- Index of the loop iteration at which the debounce check first passes. -/
def fireIndex (acts : List ℚ) (t0 : ℚ) : Nat :=
  Nat.find (debounceCheck_exists acts t0)

/-- The clock instant at which the cycle leaves the debounce loop and
enters execution. -/
def fireTime (acts : List ℚ) (t0 : ℚ) : ℚ :=
  t0 + 5 * (fireIndex acts t0 + 1)

theorem fireTime_check :
    ∀ acts t0, debounceCheck acts t0 (fireIndex acts t0) :=
  fun acts t0 => Nat.find_spec (debounceCheck_exists acts t0)

theorem fireTime_latency (acts : List ℚ) (t0 : ℚ) (h0 : t0 ∈ acts) :
    3 ≤ fireTime acts t0 - lastActivity acts (fireTime acts t0) ∧
      fireTime acts t0 - lastActivity acts (fireTime acts t0) < 8 := by
  have hfire : 3 ≤ fireTime acts t0 - lastActivity acts (fireTime acts t0) := by
    have h := Nat.find_spec (debounceCheck_exists acts t0)
    unfold debounceCheck at h
    exact h
  refine ⟨hfire, ?_⟩
  cases hkz : fireIndex acts t0 with
  | zero =>
      have hts : fireTime acts t0 = t0 + 5 := by
        unfold fireTime
        rw [hkz]
        norm_num
      have hL : t0 ≤ lastActivity acts (fireTime acts t0) :=
        le_lastActivity acts (fireTime acts t0) t0 h0 (by linarith)
      linarith
  | succ j =>
      have hj : j < fireIndex acts t0 := by omega
      have hprev : ¬ debounceCheck acts t0 j :=
        Nat.find_min (debounceCheck_exists acts t0) hj
      unfold debounceCheck at hprev
      push_neg at hprev
      have hts : fireTime acts t0 = (t0 + 5 * ((j : ℚ) + 1)) + 5 := by
        unfold fireTime
        rw [hkz]
        push_cast
        ring
      have hmono : lastActivity acts (t0 + 5 * ((j : ℚ) + 1)) ≤
          lastActivity acts (fireTime acts t0) :=
        lastActivity_mono acts _ _ (by linarith)
      rcases le_or_lt (lastActivity acts (fireTime acts t0))
          (t0 + 5 * ((j : ℚ) + 1)) with hle | hgt
      · have heq : lastActivity acts (t0 + 5 * ((j : ℚ) + 1)) =
            lastActivity acts (fireTime acts t0) := by
          rcases lastActivity_mem_or_zero acts (fireTime acts t0) with hmem | hzero
          · exact le_antisymm hmono
              (le_lastActivity acts (t0 + 5 * ((j : ℚ) + 1)) _ hmem hle)
          · have hnn := lastActivity_nonneg acts (t0 + 5 * ((j : ℚ) + 1))
            rw [hzero]
            linarith
        linarith
      · linarith

/-- C4: with `quiet_threshold = 3` and poll interval `P = 5` (the literals
of src/__init__.py:181-182), a qualifying activity at `t = 0` with no
further activity makes the cycle fire at `t* = 5 ∈ [3, 8)`; a further
qualifying activity at `t = 4` delays firing to `t* = 10 ∈ [7, 12)`; and
for every activity schedule the latency from the last recorded activity to
firing lies in `[3, 8) = [quiet_threshold, quiet_threshold + P)`. -/
theorem claim_C4_debounce_window :
    (fireTime [0] 0 = 5 ∧ (3 : ℚ) ≤ fireTime [0] 0 ∧ fireTime [0] 0 < 8) ∧
    (fireTime [0, 4] 0 = 10 ∧ (7 : ℚ) ≤ fireTime [0, 4] 0 ∧
      fireTime [0, 4] 0 < 12) ∧
    (∀ (acts : List ℚ) (t0 : ℚ), t0 ∈ acts →
      3 ≤ fireTime acts t0 - lastActivity acts (fireTime acts t0) ∧
        fireTime acts t0 - lastActivity acts (fireTime acts t0) < 8) := by
  have hL1 : lastActivity [(0 : ℚ)] 5 = 0 := by
    unfold lastActivity
    norm_num
  have hidx1 : fireIndex [(0 : ℚ)] 0 = 0 := by
    unfold fireIndex
    rw [Nat.find_eq_zero]
    unfold debounceCheck
    rw [show (0 : ℚ) + 5 * ((0 : ℕ) + 1) = 5 by norm_num, hL1]
    norm_num
  have hfire1 : fireTime [(0 : ℚ)] 0 = 5 := by
    unfold fireTime
    rw [hidx1]
    norm_num
  have hL2a : lastActivity [(0 : ℚ), 4] 5 = 4 := by
    unfold lastActivity
    norm_num
  have hL2b : lastActivity [(0 : ℚ), 4] 10 = 4 := by
    unfold lastActivity
    norm_num
  have hidx2 : fireIndex [(0 : ℚ), 4] 0 = 1 := by
    unfold fireIndex
    rw [Nat.find_eq_iff]
    constructor
    · unfold debounceCheck
      rw [show (0 : ℚ) + 5 * ((1 : ℕ) + 1) = 10 by norm_num, hL2b]
      norm_num
    · intro n hn
      interval_cases n
      unfold debounceCheck
      rw [show (0 : ℚ) + 5 * ((0 : ℕ) + 1) = 5 by norm_num, hL2a]
      norm_num
  have hfire2 : fireTime [(0 : ℚ), 4] 0 = 10 := by
    unfold fireTime
    rw [hidx2]
    norm_num
  refine ⟨⟨hfire1, ?_, ?_⟩, ⟨hfire2, ?_, ?_⟩, fun acts t0 h0 => fireTime_latency acts t0 h0⟩
  · rw [hfire1]; norm_num
  · rw [hfire1]; norm_num
  · rw [hfire2]; norm_num
  · rw [hfire2]; norm_num

theorem claim_C4_debounce_window_witness :
    (0 : ℚ) ∈ [(0 : ℚ)] ∧
      3 ≤ fireTime [0] 0 - lastActivity [0] (fireTime [0] 0) ∧
        fireTime [0] 0 - lastActivity [0] (fireTime [0] 0) < 8 := by
  have h := claim_C4_debounce_window.2.2 [(0 : ℚ)] 0 (by simp)
  exact ⟨by simp, h.1, h.2⟩

/-! ## The ingestion handler (src/__init__.py:223-242) -/

/-- An inbound message event as the handler sees it.  `admitted` is the
result of `check_access` and `mentioned` the result of `check_mention`
(which itself rechecks access, so in the code `mentioned` implies
`admitted`); both checks are pure functions of the event and configuration,
external to the claims, so they enter the model as the event's fields.
`sid` is `event.group_id` for a group event and `event.user_id` for a
private one (src/__init__.py:236). -/
structure InboundEvent where
  stype : SessionType
  sid : Int
  selfId : Int
  msg : SimpleMessage
  admitted : Bool
  mentioned : Bool

/-- `handle_all_message` (src/__init__.py:223-242), one atomic run (the
handler contains no `await`): if `check_access` fails, nothing happens;
otherwise the session is fetched or created and the message appended, then
`last_message_time` is stamped unconditionally, and only then the
mention-and-not-pending guard decides whether `asyncio.create_task` is
called (the returned boolean). -/
def handleAllMessage (w : World) (e : InboundEvent) (now : ℚ) : World × Bool :=
  if e.admitted then
    let pair := getSession w.mgr e.stype e.sid e.selfId
    let mgr1 : SessionManager :=
      ⟨fun i => if i = e.sid then some (addMessage pair.1 e.msg) else pair.2.sessions i⟩
    let sched1 := updateTime w.sched e.sid now
    (⟨sched1, mgr1⟩, e.mentioned && !(sched1.pending_sessions e.sid))
  else (w, false)

theorem lastActivity_cons_le (acts : List ℚ) (a t : ℚ) :
    lastActivity acts t ≤ lastActivity (a :: acts) t := by
  unfold lastActivity
  rw [List.filter_cons]
  by_cases h : a ≤ t
  · rw [if_pos (by simpa using h), List.foldr_cons]
    exact le_max_right a _
  · rw [if_neg (by simpa using h)]

theorem fireIndex_cons_mono (acts : List ℚ) (t0 a : ℚ) :
    fireIndex acts t0 ≤ fireIndex (a :: acts) t0 := by
  unfold fireIndex
  apply Nat.find_mono
  intro n hn
  unfold debounceCheck at *
  have := lastActivity_cons_le acts a (t0 + 5 * ((n : ℚ) + 1))
  linarith

/-- C10: every access-admitted inbound message stamps the conversation's
`last_message_time`, whether or not it mentions the bot; and recording one
more activity instant can only move the debounce firing instant later —
concretely, an admitted non-qualifying message at `t = 4` moves the firing
of a cycle triggered at `t = 0` from `5` to `10`. -/
theorem claim_C10_admitted_updates_time :
    (∀ (w : World) (e : InboundEvent) (now : ℚ), e.admitted = true →
      (handleAllMessage w e now).1.sched.last_message_time e.sid = now) ∧
    (∀ (acts : List ℚ) (t0 a : ℚ), fireTime acts t0 ≤ fireTime (a :: acts) t0) ∧
    fireTime [0] 0 = 5 ∧ fireTime [4, 0] 0 = 10 := by
  refine ⟨?_, ?_, ?_, ?_⟩
  · intro w e now h
    unfold handleAllMessage
    rw [if_pos h]
    show (updateTime w.sched e.sid now).last_message_time e.sid = now
    unfold updateTime
    simp
  · intro acts t0 a
    unfold fireTime
    have := fireIndex_cons_mono acts t0 a
    have hcast : ((fireIndex acts t0 : ℚ)) ≤ (fireIndex (a :: acts) t0 : ℚ) := by
      exact_mod_cast this
    linarith
  · have hL1 : lastActivity [(0 : ℚ)] 5 = 0 := by
      unfold lastActivity; norm_num
    have hidx1 : fireIndex [(0 : ℚ)] 0 = 0 := by
      unfold fireIndex
      rw [Nat.find_eq_zero]
      unfold debounceCheck
      rw [show (0 : ℚ) + 5 * ((0 : ℕ) + 1) = 5 by norm_num, hL1]
      norm_num
    unfold fireTime
    rw [hidx1]
    norm_num
  · have hL2a : lastActivity [(4 : ℚ), 0] 5 = 4 := by
      unfold lastActivity; norm_num
    have hL2b : lastActivity [(4 : ℚ), 0] 10 = 4 := by
      unfold lastActivity; norm_num
    have hidx2 : fireIndex [(4 : ℚ), 0] 0 = 1 := by
      unfold fireIndex
      rw [Nat.find_eq_iff]
      constructor
      · unfold debounceCheck
        rw [show (0 : ℚ) + 5 * ((1 : ℕ) + 1) = 10 by norm_num, hL2b]
        norm_num
      · intro n hn
        interval_cases n
        unfold debounceCheck
        rw [show (0 : ℚ) + 5 * ((0 : ℕ) + 1) = 5 by norm_num, hL2a]
        norm_num
    unfold fireTime
    rw [hidx2]
    norm_num

/-- An admitted group message that does not mention the bot. -/
def exEventNoMention : InboundEvent :=
  { stype := .groupChat, sid := 42, selfId := 9, msg := exMsg180,
    admitted := true, mentioned := false }

theorem claim_C10_admitted_updates_time_witness :
    exEventNoMention.admitted = true ∧
      (handleAllMessage ⟨SchedulerState.initial, exMgrGroup42⟩
          exEventNoMention 4).1.sched.last_message_time 42 = 4 :=
  ⟨rfl, claim_C10_admitted_updates_time.1
    ⟨SchedulerState.initial, exMgrGroup42⟩ exEventNoMention 4 rfl⟩

/-! ## Event-loop interleaving for one conversation (src/__init__.py:169-242)

`handle_all_message` contains no `await`, so each run of it is one atomic
step on the asyncio event loop.  `asyncio.create_task` (src 242) only
*schedules* the coroutine: the first segment of `delayed_llm_query` — the
one that executes `session_state.add_pending` and `update_time`
(src 174-175) before reaching its first `await` — runs later, whenever the
loop gets to that task.  In particular, a second handler run (another
already-queued event task) may execute between `create_task` and that
first segment.  The model tracks one conversation: its `pending` flag,
`last_message_time`, the loop clock, and the phase of every
`delayed_llm_query` task ever created for it. -/

inductive TaskPhase where
  | created
  | running
  | finished
deriving DecidableEq, Repr

structure AsyncState where
  pending : Bool
  lastTime : ℚ
  clock : ℚ
  tasks : List TaskPhase
deriving DecidableEq, Repr

/-- One atomic event-loop step.

* `handler`: an admitted event for this conversation is handled
  (src 226-242): `last_message_time` is stamped; if the event qualifies
  (`check_mention`) and the conversation is not in `pending_sessions`,
  `create_task` adds a new task in phase `created`.
* `startTask`: a created task runs its pre-`await` segment (src 174-175):
  it enters `pending_sessions` and stamps the time.
* `finishTask`: a running task reaches its `finally` (src 220-221) and
  leaves `pending_sessions`.
* `tick`: the clock advances. -/
inductive AStep : AsyncState → AsyncState → Prop where
  | handler (s : AsyncState) (mentioned : Bool) :
      AStep s
        { s with
            lastTime := s.clock,
            tasks := (if mentioned && !s.pending
              then s.tasks ++ [TaskPhase.created] else s.tasks) }
  | startTask (s : AsyncState) (i : Nat)
      (h : s.tasks.get? i = some TaskPhase.created) :
      AStep s
        { s with
            pending := true,
            lastTime := s.clock,
            tasks := s.tasks.set i TaskPhase.running }
  | finishTask (s : AsyncState) (i : Nat)
      (h : s.tasks.get? i = some TaskPhase.running) :
      AStep s
        { s with
            pending := false,
            tasks := s.tasks.set i TaskPhase.finished }
  | tick (s : AsyncState) (d : ℚ) (h : 0 ≤ d) :
      AStep s { s with clock := s.clock + d }

def AsyncReachable : AsyncState → AsyncState → Prop :=
  Relation.ReflTransGen AStep

/-- The module state at plugin start: nothing pending, no task. -/
def asyncInit : AsyncState :=
  { pending := false, lastTime := 0, clock := 0, tasks := [] }

/-- Number of admitted cycles in flight: tasks created and not yet
finished. -/
def inFlight (s : AsyncState) : Nat :=
  (s.tasks.filter (fun p => p ≠ TaskPhase.finished)).length

/-- The state after two back-to-back qualifying handler runs, before either
spawned task has run. -/
def exRaceState : AsyncState :=
  { pending := false, lastTime := 0, clock := 0,
    tasks := [TaskPhase.created, TaskPhase.created] }

/-- C1 fails on the code: two qualifying messages handled back-to-back —
both handler runs complete before the first `delayed_llm_query` task gets
its first run, a scheduling order asyncio permits since `create_task` only
queues the coroutine — leave TWO admitted cycles in flight for the same
conversation, because `is_pending` is still false during the second run
(`add_pending` executes inside the task, src/__init__.py:174, not at
creation, src 240-242).  The claim's "at most one admitted cycle in
flight for every interleaving" therefore does not hold. -/
theorem claim_C1_two_cycles_in_flight :
    AsyncReachable asyncInit exRaceState ∧
      inFlight exRaceState = 2 ∧ exRaceState.pending = false := by
  refine ⟨?_, rfl, rfl⟩
  have h1 : AStep asyncInit
      { pending := false, lastTime := 0, clock := 0,
        tasks := [TaskPhase.created] } :=
    AStep.handler asyncInit true
  have h2 : AStep
      { pending := false, lastTime := 0, clock := 0,
        tasks := [TaskPhase.created] }
      exRaceState :=
    AStep.handler _ true
  exact Relation.ReflTransGen.head h1 (Relation.ReflTransGen.single h2)
